import Mathlib

/-!
Verification of the run-segmentation, series-building and hierarchy-assembly
logic of `convert2nwbpClamp.py` / `localFunctions.py` (patch-clamp to NWB
converter).  The Python code is shallowly embedded: numpy integer arrays
become `List Int` / `List Nat`, floating point scalars become `ℚ`, and code
paths that raise a Python exception (unbound local variable, index error)
become `Option`-valued with `none` marking the raised exception.
-/

namespace PClamp

/-- Leading character of a label string (Python `label[0]`; the default is
never reached on the nonempty labels used throughout). -/
def firstChar (s : String) : Char := s.toList.headD ' '

/-- Leading character of the `i`-th sweep label (`sweepLabels[i][0]`). -/
def labChar (l : List String) (i : Nat) : Char := firstChar (l.getD i "")

/-- The boundary test of `getRuns`:
`not sweepLabels[sweep][0] == sweepLabels[sweep-1][0]`. -/
def isBoundary (l : List String) (i : Nat) : Bool :=
  decide (¬ labChar l i = labChar l (i - 1))

/-- Result record of `getRuns` (localFunctions.py lines 33-54): run names,
run start indices, run start times, data points per sweep, and units. -/
structure RunsResult where
  runs : List String
  inds : List Nat
  startTimes : List ℚ
  dataPoints : List Int
  units : List String
deriving Repr, DecidableEq

/-- One iteration of the `getRuns` sweep loop (localFunctions.py lines
39-52): on a label-change boundary, classify the new run by the leading
character (`'b'` → break, `'0'` → plasticity, `'1'` → baseline, anything
else appends no run name/unit) and record the boundary index, data points
and start time. -/
def getRunsStep (l : List String) (dps : List Int) (sts : List ℚ)
    (acc : RunsResult) (sweep : Nat) : RunsResult :=
  if isBoundary l sweep then
    let acc1 :=
      if labChar l sweep = 'b' then
        { acc with runs := acc.runs ++ ["break"], units := acc.units ++ ["amperes"] }
      else if labChar l sweep = '0' then
        { acc with runs := acc.runs ++ ["plasticity"], units := acc.units ++ ["volts"] }
      else if labChar l sweep = '1' then
        { acc with runs := acc.runs ++ ["baseline"], units := acc.units ++ ["amperes"] }
      else acc
    { acc1 with inds := acc1.inds ++ [sweep],
                dataPoints := acc1.dataPoints ++ [dps.getD sweep 0],
                startTimes := acc1.startTimes ++ [sts.getD sweep 0] }
  else acc

/-- The initial accumulator of `getRuns` (localFunctions.py lines 33-38):
the first run starts as `baseline`/`amperes` at sweep 0. -/
def getRunsInit (dps : List Int) (sts : List ℚ) : RunsResult :=
  { runs := ["baseline"], inds := [0],
    startTimes := [sts.headD 0], dataPoints := [dps.headD 0],
    units := ["amperes"] }

/-- Embedding of `getRuns` (localFunctions.py lines 33-54): the boundary scan walks
`range(1, sweepLabels.size - 1)`, i.e. sweep indices 1 up to the
second-to-last index (the final sweep is excluded). -/
def getRuns (l : List String) (dps : List Int) (sts : List ℚ) : RunsResult :=
  (List.range' 1 (l.length - 1 - 1)).foldl (getRunsStep l dps sts) (getRunsInit dps sts)

/-- Inclusive run index ranges (convert2nwbpClamp.py lines 118-119):
`endRunInds = concatenate((runInds[1:], [nSweeps])) - 1` paired with the
run start indices. -/
def runRanges (inds : List Nat) (nSweeps : Nat) : List (Nat × Int) :=
  inds.zip ((((inds.drop 1).map (fun i => (i : Int))) ++ [(nSweeps : Int)]).map (fun x => x - 1))

/-- Run classification by leading label character, as an `Option`
(`none` = the unmapped-character case where `getRuns` appends nothing). -/
def classifyChar? (c : Char) : Option String :=
  if c = 'b' then some "break"
  else if c = '0' then some "plasticity"
  else if c = '1' then some "baseline"
  else none

/-- Unit selection by leading label character, as an `Option`. -/
def unitOfChar? (c : Char) : Option String :=
  if c = 'b' then some "amperes"
  else if c = '0' then some "volts"
  else if c = '1' then some "amperes"
  else none

/-- Total version of the run classification (defaulting on unmapped
characters; the default is never reached under the alphabet hypothesis). -/
def classifyChar (c : Char) : String := (classifyChar? c).getD "unclassified"

/-! ## Series Builder (localFunctions.py lines 57-200, convert2nwbpClamp.py lines 106-156) -/

/-- Constant `vcScaleFactor = 1/10E12` (convert2nwbpClamp.py line 106); Python's
`10E12` is `10 * 10^12`. -/
def vcScaleFactor : ℚ := 1 / 10000000000000

/-- Constant `ccScaleFactor = 2.5/10E5` (convert2nwbpClamp.py line 107). -/
def ccScaleFactor : ℚ := 2.5 / 1000000

/-- The zero-padding of the series name (localFunctions.py lines 92-97 and
169-174): numbers below 10 get `"00"`, numbers below 100 get `"0"`. -/
def zeroPad (n : Int) : String := if n < 10 then "00" else if n < 100 then "0" else ""

/-- Series name `'PatchClampSeries'` followed by the zero-padded number
(`str(input['sweepOrder'][0])`). -/
def seriesName (n : Int) : String := "PatchClampSeries" ++ zeroPad n ++ toString n

/-- The keyword arguments common to all four patch-clamp series
constructors (name, description, data, gain, unit, stimulus_description,
starting_time, rate, sweep_number). -/
structure SeriesParams where
  name : String
  description : String
  data : List ℚ
  gain : ℚ
  unit : String
  stimulusDescription : String
  startingTime : ℚ
  rate : ℚ
  sweepNumber : Int
deriving Repr, DecidableEq

/-- The `input` dictionary handed to `setVClampSeries`
(convert2nwbpClamp.py lines 140-148): `sweepOrder` is the pair
`[sweep + 1, sweepIDs[sweep]]`. -/
structure VClampInput where
  samplingRate : ℚ
  startTime : ℚ
  data : List ℚ
  condition : String
  stimState : Int
  unit : String
  sweepOrder : Int × Int
deriving Repr, DecidableEq

/-- The `input` dictionary handed to `setCClampSeries` (same, with
`condition` and `stimState` popped). -/
structure CClampInput where
  samplingRate : ℚ
  startTime : ℚ
  data : List ℚ
  unit : String
  sweepOrder : Int × Int
deriving Repr, DecidableEq

/-- The description/stimulus-description selection of `setVClampSeries`
(localFunctions.py lines 99-108).  `none` models the fall-through where
neither local variable is ever assigned, so that the later uses raise an
unhandled `NameError`. -/
def vclampDescriptions (condition : String) (stimState : Int) : Option (String × String) :=
  if condition = "baseline" then
    if stimState = 0 then
      some ("Baseline condition: Light stimulation",
            "Baseline stimulation: Double light pulses.")
    else if stimState = 1 then
      some ("Baseline condition: Current stimulation",
            "Baseline stimulation: Double current pulses.")
    else none
  else if condition = "break" then
    some ("Break sweeps are used while switching between two conditions: Nothing happens.",
          "No stimulation.")
  else none

/-- Embedding of `setVClampSeries` (localFunctions.py lines 61-134): returns the
(VoltageClampStimulusSeries, VoltageClampSeries) parameter pair, or `none`
when the description lookup falls through (Python `NameError`). -/
def setVClampSeries (input : VClampInput) : Option (SeriesParams × SeriesParams) :=
  (vclampDescriptions input.condition input.stimState).map (fun d =>
    ({ name := seriesName input.sweepOrder.1, description := d.1,
       data := input.data, gain := 1, unit := "volts",
       stimulusDescription := d.2, startingTime := input.startTime,
       rate := input.samplingRate, sweepNumber := input.sweepOrder.2 },
     { name := seriesName input.sweepOrder.1, description := d.1,
       data := input.data, gain := 1, unit := input.unit,
       stimulusDescription := d.2, startingTime := input.startTime,
       rate := input.samplingRate, sweepNumber := input.sweepOrder.2 }))

/-- Embedding of `setCClampSeries` (localFunctions.py lines 140-200): returns the
(CurrentClampStimulusSeries, CurrentClampSeries) parameter pair. -/
def setCClampSeries (input : CClampInput) : SeriesParams × SeriesParams :=
  ({ name := seriesName input.sweepOrder.1, description := "Plasticity condition",
     data := input.data, gain := 1, unit := "amperes",
     stimulusDescription := "Plasticity protocol: Simultaneous current and light stimulation",
     startingTime := input.startTime, rate := input.samplingRate,
     sweepNumber := input.sweepOrder.2 },
   { name := seriesName input.sweepOrder.1, description := "Plasticity condition",
     data := input.data, gain := 1, unit := input.unit,
     stimulusDescription := "Plasticity protocol: Simultaneous current and light stimulation",
     startingTime := input.startTime, rate := input.samplingRate,
     sweepNumber := input.sweepOrder.2 })

/-- Embedding of
`np.where(logical_and(runInds[:,0] <= sweep, sweep <= runInds[:,1]))[0][0]`
(convert2nwbpClamp.py line 139): index of the first run range containing
the sweep; `none` models the `IndexError` when no range contains it. -/
def findRun (ranges : List (Nat × Int)) (sweep : Nat) : Option Nat :=
  ranges.findIdx? (fun p => decide (p.1 ≤ sweep ∧ (sweep : Int) ≤ p.2))

/-- The series-builder call made for one sweep. -/
inductive SweepSeriesCall where
  | cclamp (input : CClampInput)
  | vclamp (input : VClampInput)
deriving Repr, DecidableEq

/-- The per-sweep input construction and clamp dispatch of the sweep loop
(convert2nwbpClamp.py lines 138-156): plasticity runs scale the data by
`ccScaleFactor` and call `setCClampSeries`; all other runs scale by
`vcScaleFactor` and call `setVClampSeries`. -/
def buildSweepCall (interval : ℚ) (sweepStartTimes : List ℚ) (values : List (List ℚ))
    (sweepStates sweepIDs : List Int) (runs runUnits : List String)
    (ranges : List (Nat × Int)) (sweep : Nat) : Option SweepSeriesCall :=
  (findRun ranges sweep).map (fun run =>
    if runs.getD run "" = "plasticity" then
      .cclamp { samplingRate := 1 / interval,
                startTime := sweepStartTimes.getD sweep 0,
                data := (values.getD sweep []).map (fun x => x * ccScaleFactor),
                unit := runUnits.getD run "",
                sweepOrder := ((sweep : Int) + 1, sweepIDs.getD sweep 0) }
    else
      .vclamp { samplingRate := 1 / interval,
                startTime := sweepStartTimes.getD sweep 0,
                data := (values.getD sweep []).map (fun x => x * vcScaleFactor),
                condition := runs.getD run "",
                stimState := sweepStates.getD sweep 0,
                unit := runUnits.getD run "",
                sweepOrder := ((sweep : Int) + 1, sweepIDs.getD sweep 0) })

/-- Dispatch of a sweep call to the two series constructors
(convert2nwbpClamp.py lines 149-156). -/
def seriesOfCall : SweepSeriesCall → Option (SeriesParams × SeriesParams)
  | .cclamp input => some (setCClampSeries input)
  | .vclamp input => setVClampSeries input

/-- The scaled data carried by a sweep call. -/
def sweepCallData : SweepSeriesCall → List ℚ
  | .cclamp input => input.data
  | .vclamp input => input.data

/-- The unit carried by a sweep call. -/
def sweepCallUnit : SweepSeriesCall → String
  | .cclamp input => input.unit
  | .vclamp input => input.unit

/-- The `sweepOrder` pair carried by a sweep call. -/
def sweepCallOrder : SweepSeriesCall → Int × Int
  | .cclamp input => input.sweepOrder
  | .vclamp input => input.sweepOrder

/-! ## Hierarchy Assembler (convert2nwbpClamp.py lines 234-263) -/

/-- Embedding of `np.arange(start, stop, 1)` for the integer arguments used by the
sequential-recording loop. -/
def npArange (start : Nat) (stop : Int) : List Nat :=
  List.range' start (stop - (start : Int)).toNat

/-- Embedding of `np.unique`: the sorted list of distinct values. -/
def npUnique (xs : List Int) : List Int := (xs.insertionSort (fun a b => a ≤ b)).dedup

/-- One run's sequential recordings (convert2nwbpClamp.py lines 235-252):
`inds = arange(runInds[iRun,0], runInds[iRun,-1])` (the run's *inclusive*
end index is used as an *exclusive* `arange` stop), `condStates` are the
states of those sweeps, and for each distinct state the referenced
simultaneous-recording rows are `rowIndicesSimRec[int(i)] for i in
np.argwhere(condStates == state)` — argwhere positions *within the run*
used as indices into the session-wide per-sweep row list, so the
referenced sweep indices are the run-relative positions themselves. -/
def seqRecsOfRun (sweepStates : List Int) (p : Nat × Int) : List (Int × List Nat) :=
  let inds := npArange p.1 p.2
  let condStates := inds.map (fun i => sweepStates.getD i 0)
  (npUnique condStates).map (fun s =>
    (s, (List.range condStates.length).filter (fun q => decide (condStates.getD q 0 = s))))

/-- The sequential-recording ids produced for each run in order:
`seqGroupCount` increments across the whole double loop, so run `r`
receives the next `(number of distinct states in run r)` consecutive ids. -/
def seqRecIdsFrom (sweepStates : List Int) (offset : Nat) :
    List (Nat × Int) → List (List Nat)
  | [] => []
  | p :: rest =>
    let c := (npUnique ((npArange p.1 p.2).map (fun i => sweepStates.getD i 0))).length
    List.range' offset c :: seqRecIdsFrom sweepStates (offset + c) rest

/-- Sequential-recording ids grouped by run for a whole session. -/
def seqRecIdsOfRuns (sweepStates : List Int) (ranges : List (Nat × Int)) : List (List Nat) :=
  seqRecIdsFrom sweepStates 0 ranges

/-- The hard-coded `runInds = [[1,2], 3, 4, 5, [6,7]]` of
convert2nwbpClamp.py line 257 (each scalar is wrapped by
`np.array(..., ndmin=1)`). -/
def hardcodedRunInds : List (List Nat) := [[1, 2], [3], [4], [5], [6, 7]]

/-- The repetitions table (convert2nwbpClamp.py lines 260-263): one
repetition per run with `id = iRun`, whose sequential-recording references
are `hardcodedRunInds[iRun]`; `none` models the `IndexError` raised when
the session has more runs than the hard-coded list has entries. -/
def repetitions (nRuns : Nat) : Option (List (Nat × List Nat)) :=
  if nRuns ≤ hardcodedRunInds.length then
    some ((List.range nRuns).map (fun i => (i, hardcodedRunInds.getD i [])))
  else none

/-- The stimulus-type map of the sequential-recording loop
(convert2nwbpClamp.py lines 240-247), as an `Option`: `none` for a state
code that no `elif` branch assigns. -/
def stimTag? (s : Int) : Option String :=
  if s = 0 then some "light"
  else if s = 1 then some "current"
  else if s = 2 then some "combined"
  else if s = 9 then some "noStim"
  else none

/-- The `stimulusType` variable threading of the tagging loop: `vars` is
the current binding of the Python local `stimulusType` (`none` =
unbound).  An unmapped state leaves the variable unchanged; using it while
unbound raises `NameError` (modelled by the result `none`), otherwise the
stale previous tag is silently reused. -/
def tagStates (vars : Option String) : List Int → Option (List String)
  | [] => some []
  | s :: rest =>
    match (stimTag? s).orElse (fun _ => vars) with
    | none => none
    | some t => (tagStates (some t) rest).map (fun r => t :: r)

/-- The stream of (run, distinct state) pairs in the order the double loop
of convert2nwbpClamp.py lines 235-253 visits them. -/
def sessionUniqueStateStream (sweepStates : List Int) (ranges : List (Nat × Int)) : List Int :=
  (ranges.map (fun p => npUnique ((npArange p.1 p.2).map (fun i => sweepStates.getD i 0)))).flatten

/-- The stimulus-type tags assigned to the session's sequential recordings
in creation order (`none` = the conversion aborts with `NameError`). -/
def sessionTags (sweepStates : List Int) (ranges : List (Nat × Int)) : Option (List String) :=
  tagStates none (sessionUniqueStateStream sweepStates ranges)

/-! ## Auxiliary definitions used by the proofs -/

/-- The recognized leading-character alphabet of the run segmenter. -/
def runAlphabet : List Char := ['b', '0', '1']

/-- The run name appended (if any) when the scan visits index `i`. -/
def runOfIdx (l : List String) (i : Nat) : Option String :=
  if isBoundary l i then classifyChar? (labChar l i) else none

/-- A concrete voltage-clamp input used to instantiate the universally
quantified series theorems. -/
def vcwInput : VClampInput :=
  { samplingRate := 1, startTime := 0, data := [3], condition := "break",
    stimState := 0, unit := "amperes", sweepOrder := (1, 7) }

/-- A throwaway series pair for `Option.getD` in closed instantiations. -/
def dummyPair : SeriesParams × SeriesParams :=
  ({ name := "", description := "", data := [], gain := 0, unit := "",
     stimulusDescription := "", startingTime := 0, rate := 0, sweepNumber := 0 },
   { name := "", description := "", data := [], gain := 0, unit := "",
     stimulusDescription := "", startingTime := 0, rate := 0, sweepNumber := 0 })

/-! ## Structural lemmas about `getRuns` -/

theorem headD_eq_getD {α : Type} (l : List α) (d : α) : l.headD d = l.getD 0 d := by
  cases l <;> rfl

theorem getRunsStep_inds_of_boundary (l : List String) (dps : List Int) (sts : List ℚ)
    (acc : RunsResult) (i : Nat) (h : isBoundary l i = true) :
    (getRunsStep l dps sts acc i).inds = acc.inds ++ [i] := by
  unfold getRunsStep
  rw [if_pos h]
  split_ifs <;> rfl

theorem getRunsStep_of_not_boundary (l : List String) (dps : List Int) (sts : List ℚ)
    (acc : RunsResult) (i : Nat) (h : ¬ isBoundary l i = true) :
    getRunsStep l dps sts acc i = acc := by
  unfold getRunsStep
  rw [if_neg h]

theorem getRunsStep_runs (l : List String) (dps : List Int) (sts : List ℚ)
    (acc : RunsResult) (i : Nat) :
    (getRunsStep l dps sts acc i).runs = acc.runs ++ (runOfIdx l i).toList := by
  unfold getRunsStep runOfIdx classifyChar?
  by_cases h : isBoundary l i = true
  · rw [if_pos h, if_pos h]
    split_ifs <;> simp
  · rw [if_neg h, if_neg h]
    simp

theorem foldl_getRunsStep_inds (l : List String) (dps : List Int) (sts : List ℚ)
    (xs : List Nat) :
    ∀ acc : RunsResult,
      (xs.foldl (getRunsStep l dps sts) acc).inds = acc.inds ++ xs.filter (isBoundary l) := by
  induction xs with
  | nil => intro acc; simp
  | cons i xs ih =>
    intro acc
    rw [List.foldl_cons, ih, List.filter_cons]
    by_cases h : isBoundary l i = true
    · rw [if_pos h, getRunsStep_inds_of_boundary l dps sts acc i h]
      simp
    · rw [if_neg h, getRunsStep_of_not_boundary l dps sts acc i h]

theorem foldl_getRunsStep_runs (l : List String) (dps : List Int) (sts : List ℚ)
    (xs : List Nat) :
    ∀ acc : RunsResult,
      (xs.foldl (getRunsStep l dps sts) acc).runs
        = acc.runs ++ xs.filterMap (runOfIdx l) := by
  induction xs with
  | nil => intro acc; simp
  | cons i xs ih =>
    intro acc
    rw [List.foldl_cons, ih, getRunsStep_runs, List.filterMap_cons]
    rcases h : runOfIdx l i with _ | v <;> simp

theorem getRuns_inds_eq (l : List String) (dps : List Int) (sts : List ℚ) :
    (getRuns l dps sts).inds
      = 0 :: (List.range' 1 (l.length - 1 - 1)).filter (isBoundary l) := by
  unfold getRuns
  rw [foldl_getRunsStep_inds]
  rfl

theorem getRuns_runs_eq (l : List String) (dps : List Int) (sts : List ℚ) :
    (getRuns l dps sts).runs
      = "baseline" :: (List.range' 1 (l.length - 1 - 1)).filterMap (runOfIdx l) := by
  unfold getRuns
  rw [foldl_getRunsStep_runs]
  rfl

theorem classifyChar?_isSome (c : Char) (hc : c ∈ runAlphabet) :
    (classifyChar? c).isSome = true := by
  simp only [runAlphabet, List.mem_cons, List.not_mem_nil, or_false] at hc
  rcases hc with h | h | h <;> subst h <;> decide

theorem classifyChar_injOn (c d : Char) (hc : c ∈ runAlphabet) (hd : d ∈ runAlphabet)
    (hne : ¬ c = d) : ¬ classifyChar c = classifyChar d := by
  simp only [runAlphabet, List.mem_cons, List.not_mem_nil, or_false] at hc hd
  rcases hc with h | h | h <;> rcases hd with h' | h' | h' <;> subst h <;> subst h' <;>
    first
    | exact absurd rfl hne
    | decide

theorem filterMap_runOfIdx_eq_map (l : List String) (xs : List Nat)
    (h : ∀ i ∈ xs, labChar l i ∈ runAlphabet) :
    xs.filterMap (runOfIdx l)
      = (xs.filter (isBoundary l)).map (fun i => classifyChar (labChar l i)) := by
  induction xs with
  | nil => rfl
  | cons i xs ih =>
    have hi := h i (List.mem_cons_self i xs)
    have hrest := fun j hj => h j (List.mem_cons_of_mem i hj)
    by_cases hb : isBoundary l i = true
    · have hs := classifyChar?_isSome (labChar l i) hi
      rcases hcls : classifyChar? (labChar l i) with _ | v
      · rw [hcls] at hs; simp at hs
      · have hro : runOfIdx l i = some v := by
          unfold runOfIdx
          rw [if_pos hb, hcls]
        have hcv : classifyChar (labChar l i) = v := by
          unfold classifyChar
          rw [hcls]
          rfl
        simp [List.filterMap_cons, hro, List.filter_cons, hb, hcv, ih hrest]
    · have hro : runOfIdx l i = none := by
        unfold runOfIdx
        rw [if_neg hb]
      simp [List.filterMap_cons, hro, List.filter_cons, hb, ih hrest]

/-! ## Run index ranges partition the sweep indices -/

theorem runRanges_single (a n : Nat) : runRanges [a] n = [(a, (n : Int) - 1)] := rfl

theorem runRanges_cons (a b : Nat) (rest : List Nat) (n : Nat) :
    runRanges (a :: b :: rest) n = (a, (b : Int) - 1) :: runRanges (b :: rest) n := rfl

theorem countP_runRanges (n k : Nat) (hk : k < n) :
    ∀ (rest : List Nat) (a : Nat), (a :: rest).Pairwise (fun x y => x < y) →
      (∀ i ∈ a :: rest, i < n) →
      (runRanges (a :: rest) n).countP (fun p => decide (p.1 ≤ k ∧ (k : Int) ≤ p.2))
        = if a ≤ k then 1 else 0 := by
  intro rest
  induction rest with
  | nil =>
    intro a _ _
    rw [runRanges_single, List.countP_cons, List.countP_nil]
    have hpred : (decide (a ≤ k ∧ (k : Int) ≤ (a, (n : Int) - 1).2) = true) ↔ a ≤ k := by
      simp only [decide_eq_true_eq]
      constructor
      · exact fun h => h.1
      · intro h
        refine ⟨h, ?_⟩
        omega
    by_cases ha : a ≤ k
    · rw [if_pos ha, if_pos (hpred.mpr ha)]
    · rw [if_neg ha, if_neg (fun hp => ha (hpred.mp hp))]
  | cons b rest ih =>
    intro a hpw hlt
    have hab : a < b := (List.pairwise_cons.mp hpw).1 b (List.mem_cons_self b rest)
    have htail : (runRanges (b :: rest) n).countP (fun p => decide (p.1 ≤ k ∧ (k : Int) ≤ p.2))
        = if b ≤ k then 1 else 0 :=
      ih b (List.pairwise_cons.mp hpw).2 (fun i hi => hlt i (List.mem_cons_of_mem a hi))
    rw [runRanges_cons, List.countP_cons, htail]
    have hpred : (decide ((a, (b : Int) - 1).1 ≤ k ∧ (k : Int) ≤ (a, (b : Int) - 1).2) = true)
        ↔ (a ≤ k ∧ k < b) := by
      simp only [decide_eq_true_eq]
      constructor
      · intro h
        exact ⟨h.1, by omega⟩
      · intro h
        exact ⟨h.1, by omega⟩
    rcases hd : decide ((a, (b : Int) - 1).1 ≤ k ∧ (k : Int) ≤ (a, (b : Int) - 1).2) with _ | _
    · rw [hd] at hpred
      have hnp : ¬ (a ≤ k ∧ k < b) := fun hp => by simp [hp] at hpred
      simp only [Bool.false_eq_true, if_false, add_zero]
      split_ifs with h1 <;> omega
    · rw [hd] at hpred
      have hp : a ≤ k ∧ k < b := hpred.mp rfl
      simp only [if_pos rfl]
      split_ifs with h1 <;> omega

/-! ## Consecutive runs never share a kind (when the session starts on a
`'1'` label, matching the forced `baseline` first run) -/

theorem getRunsStep_runs_of_boundary (l : List String) (dps : List Int) (sts : List ℚ)
    (acc : RunsResult) (i : Nat) (hb : isBoundary l i = true)
    (hc : labChar l i ∈ runAlphabet) :
    (getRunsStep l dps sts acc i).runs = acc.runs ++ [classifyChar (labChar l i)] := by
  rw [getRunsStep_runs]
  have hs := classifyChar?_isSome (labChar l i) hc
  rcases hcls : classifyChar? (labChar l i) with _ | v
  · rw [hcls] at hs; simp at hs
  · have hro : runOfIdx l i = some v := by
      unfold runOfIdx
      rw [if_pos hb, hcls]
    have hcv : classifyChar (labChar l i) = v := by
      unfold classifyChar
      rw [hcls]
      rfl
    rw [hro, hcv]
    rfl

theorem getRuns_chain_aux (l : List String) (dps : List Int) (sts : List ℚ)
    (h0 : labChar l 0 = '1') :
    ∀ m : Nat, (∀ i, i ≤ m → labChar l i ∈ runAlphabet) →
      ((List.range' 1 m).foldl (getRunsStep l dps sts) (getRunsInit dps sts)).runs.getLast?
          = some (classifyChar (labChar l m)) ∧
      ((List.range' 1 m).foldl (getRunsStep l dps sts) (getRunsInit dps sts)).runs.Chain'
          (fun a b => ¬ a = b) := by
  intro m
  induction m with
  | zero =>
    intro _
    constructor
    · show (["baseline"] : List String).getLast? = some (classifyChar (labChar l 0))
      rw [h0]
      rfl
    · exact List.chain'_singleton "baseline"
  | succ m ih =>
    intro halpha
    obtain ⟨ihlast, ihchain⟩ := ih (fun i hi => halpha i (Nat.le_succ_of_le hi))
    have hrange : List.range' 1 (m + 1) = List.range' 1 m ++ [1 + m] :=
      List.range'_1_concat 1 m
    rw [hrange, List.foldl_append, List.foldl_cons, List.foldl_nil]
    set acc := (List.range' 1 m).foldl (getRunsStep l dps sts) (getRunsInit dps sts) with hacc
    have hm1 : 1 + m = m + 1 := Nat.add_comm 1 m
    by_cases hb : isBoundary l (1 + m) = true
    · have hcm1 : labChar l (m + 1) ∈ runAlphabet := halpha (m + 1) (Nat.le_refl _)
      have hcm : labChar l m ∈ runAlphabet := halpha m (Nat.le_succ m)
      have hne : ¬ labChar l (m + 1) = labChar l m := by
        unfold isBoundary at hb
        rw [hm1] at hb
        simpa using hb
      have hruns : (getRunsStep l dps sts acc (1 + m)).runs
          = acc.runs ++ [classifyChar (labChar l (m + 1))] := by
        rw [getRunsStep_runs_of_boundary l dps sts acc (1 + m) hb (by rw [hm1]; exact hcm1), hm1]
      constructor
      · rw [hruns, List.getLast?_concat]
      · rw [hruns]
        refine List.Chain'.append ihchain (List.chain'_singleton _) ?_
        intro x hx y hy
        rw [ihlast] at hx
        simp only [Option.mem_def, Option.some_inj] at hx
        simp only [List.head?_cons, Option.mem_def, Option.some_inj] at hy
        subst hx
        subst hy
        exact fun hEq => (classifyChar_injOn _ _ hcm1 hcm hne) hEq.symm
    · have hstep : getRunsStep l dps sts acc (1 + m) = acc :=
        getRunsStep_of_not_boundary l dps sts acc (1 + m) hb
      have hEq : labChar l (m + 1) = labChar l m := by
        unfold isBoundary at hb
        rw [hm1] at hb
        simpa using hb
      rw [hstep]
      exact ⟨by rw [ihlast, hEq], ihchain⟩

theorem labChar_mem_of_lt (l : List String) (halpha : ∀ s ∈ l, firstChar s ∈ runAlphabet)
    (i : Nat) (hi : i < l.length) : labChar l i ∈ runAlphabet := by
  unfold labChar
  rw [List.getD_eq_getElem l "" hi]
  exact halpha _ (List.getElem_mem hi)

/-! ## Claim theorems -/

/-- Claim C2 (amended): for every session with at least 2 sweeps whose
sweep labels all lead with a character in `{'b','0','1'}`, the run index
ranges derived by `getRuns` (ends = next run's start minus one, last run
ending at sweep `N-1`) cover every sweep index in `[0, N-1]` exactly once
(no gaps, no overlaps), and the run list matches the range list in length;
moreover, whenever the first sweep's label leads with `'1'` (so that the
forced initial `baseline` run agrees with its own label), no two
consecutive runs share a kind.  (Without that extra condition the
consecutive-kind part fails, see the counterexample.) -/
theorem getRuns_partition_and_kinds (l : List String) (dps : List Int) (sts : List ℚ)
    (hn : 2 ≤ l.length) (halpha : ∀ s ∈ l, firstChar s ∈ runAlphabet) :
    (∀ k, k < l.length →
        (runRanges (getRuns l dps sts).inds l.length).countP
          (fun p => decide (p.1 ≤ k ∧ (k : Int) ≤ p.2)) = 1) ∧
    (getRuns l dps sts).runs.length = (getRuns l dps sts).inds.length ∧
    (firstChar (l.headD "") = '1' →
      (getRuns l dps sts).runs.Chain' (fun a b => ¬ a = b)) := by
  have hmn : 1 + (l.length - 1 - 1) = l.length - 1 := by omega
  have hmemRange : ∀ i ∈ List.range' 1 (l.length - 1 - 1), i < l.length := by
    intro i hi
    have := List.mem_range'_1.mp hi
    omega
  refine ⟨?_, ?_, ?_⟩
  · intro k hk
    rw [getRuns_inds_eq]
    have hpwS : ((List.range' 1 (l.length - 1 - 1)).filter (isBoundary l)).Pairwise
        (fun x y => x < y) := (List.pairwise_lt_range' 1 (l.length - 1 - 1)).filter _
    have hmemS : ∀ i ∈ (List.range' 1 (l.length - 1 - 1)).filter (isBoundary l),
        1 ≤ i ∧ i < l.length := by
      intro i hi
      have hi' := List.mem_of_mem_filter hi
      exact ⟨(List.mem_range'_1.mp hi').1, hmemRange i hi'⟩
    have hpw0 : (0 :: (List.range' 1 (l.length - 1 - 1)).filter (isBoundary l)).Pairwise
        (fun x y => x < y) :=
      List.pairwise_cons.mpr ⟨fun b hb => (hmemS b hb).1, hpwS⟩
    have hlt : ∀ i ∈ 0 :: (List.range' 1 (l.length - 1 - 1)).filter (isBoundary l),
        i < l.length := by
      intro i hi
      rcases List.mem_cons.mp hi with h | h
      · omega
      · exact (hmemS i h).2
    rw [countP_runRanges l.length k hk _ 0 hpw0 hlt]
    exact if_pos (Nat.zero_le k)
  · rw [getRuns_inds_eq, getRuns_runs_eq,
      filterMap_runOfIdx_eq_map l _ (fun i hi =>
        labChar_mem_of_lt l halpha i (hmemRange i hi))]
    simp
  · intro h1
    have h0 : labChar l 0 = '1' := by
      unfold labChar
      rw [← headD_eq_getD]
      exact h1
    exact (getRuns_chain_aux l dps sts h0 (l.length - 1 - 1)
      (fun i hi => labChar_mem_of_lt l halpha i (by omega))).2

/-- Witness for C2: a concrete two-sweep session (`["1","0"]`) where sweep
index 1 is covered by exactly one run range and the run kinds form a
`≠`-chain. -/
theorem getRuns_partition_and_kinds_w :
    (runRanges (getRuns ["1", "0"] [0, 0] [0, 0]).inds 2).countP
        (fun p => decide (p.1 ≤ 1 ∧ (1 : Int) ≤ p.2)) = 1 ∧
    (getRuns ["1", "0"] [0, 0] [0, 0]).runs.Chain' (fun a b => ¬ a = b) := by
  have h := getRuns_partition_and_kinds ["1", "0"] [0, 0] [0, 0] (by decide) (by decide)
  exact ⟨h.1 1 (by decide), h.2.2 (by decide)⟩

/-- Claim C2 (counterexample): the session `["b","1","1"]` has all labels
in the recognized alphabet and at least 2 sweeps, but `getRuns` produces
two consecutive `baseline` runs (the first run is unconditionally forced
to `baseline` even though the first label is `"b"`), so consecutive runs
can share a kind. -/
theorem getRuns_consecutive_kind_ce :
    (2 ≤ (["b", "1", "1"] : List String).length) ∧
    (∀ s ∈ (["b", "1", "1"] : List String), firstChar s ∈ runAlphabet) ∧
    (getRuns ["b", "1", "1"] [0, 0, 0] [0, 0, 0]).runs = ["baseline", "baseline"] ∧
    ¬ (getRuns ["b", "1", "1"] [0, 0, 0] [0, 0, 0]).runs.Chain' (fun a b => ¬ a = b) := by
  refine ⟨by decide, by decide, by decide, ?_⟩
  intro h
  have := List.chain'_cons.mp h
  exact this.1 rfl

/-- Claim C1 (counterexample): for labels `["1","1","b","0","0","1"]` with
uniform point counts and start times, `getRuns` produces 3 runs, not 4:
the final sweep is excluded from boundary detection, so the label change
at index 5 never opens the claimed fourth `baseline(5-5)` run. -/
theorem getRuns_scenario_ce :
    (getRuns ["1", "1", "b", "0", "0", "1"] [0, 0, 0, 0, 0, 0] [0, 0, 0, 0, 0, 0]).runs
        = ["baseline", "break", "plasticity"] ∧
    ¬ (getRuns ["1", "1", "b", "0", "0", "1"] [0, 0, 0, 0, 0, 0] [0, 0, 0, 0, 0, 0]).runs.length
        = 4 := by
  constructor
  · rfl
  · decide

/-- Claim C1 (amended): the input labels `["1","1","b","0","0","1"]` (with
uniform point counts and start times) yield exactly 3 runs with
classifications and inclusive index ranges baseline(0-1), break(2-2),
plasticity(3-5): the final sweep is never inspected for a boundary and is
absorbed into the plasticity run. -/
theorem getRuns_scenario_three_runs :
    (getRuns ["1", "1", "b", "0", "0", "1"] [0, 0, 0, 0, 0, 0] [0, 0, 0, 0, 0, 0]).runs
        = ["baseline", "break", "plasticity"] ∧
    (getRuns ["1", "1", "b", "0", "0", "1"] [0, 0, 0, 0, 0, 0] [0, 0, 0, 0, 0, 0]).units
        = ["amperes", "amperes", "volts"] ∧
    runRanges
        (getRuns ["1", "1", "b", "0", "0", "1"] [0, 0, 0, 0, 0, 0] [0, 0, 0, 0, 0, 0]).inds 6
        = [(0, 1), (2, 2), (3, 5)] := by
  refine ⟨rfl, rfl, ?_⟩
  decide

/-- Claim C3 (code evaluation): on the boundary label `"x"` (leading
character outside `{'b','0','1'}`), `getRuns` raises nothing and returns
normally with the boundary index recorded in `inds` but no classification
or unit appended — the run is silently left unclassified, leaving `runs`
and `units` shorter than `inds`. -/
theorem getRuns_unmapped_label_silent :
    (getRuns ["1", "x", "1"] [0, 0, 0] [0, 0, 0]).runs = ["baseline"] ∧
    (getRuns ["1", "x", "1"] [0, 0, 0] [0, 0, 0]).units = ["amperes"] ∧
    (getRuns ["1", "x", "1"] [0, 0, 0] [0, 0, 0]).inds = [0, 1] ∧
    ¬ (getRuns ["1", "x", "1"] [0, 0, 0] [0, 0, 0]).runs.length
        = (getRuns ["1", "x", "1"] [0, 0, 0] [0, 0, 0]).inds.length := by
  refine ⟨rfl, rfl, ?_, ?_⟩ <;> decide

/-- Claim C4 (code evaluation): for the session `["1","1","b","b"]` with
states `[1,1,9,9]`, the second run covers sweeps 2-3, yet its single
SequentialRecording references sweep 0 only: `np.arange(start, stop)`
drops the run's last sweep, and the `np.argwhere` positions (run-relative)
are used to index the session-wide simultaneous-recording row list.
Sweeps 2 and 3 of the run are referenced by none of its
SequentialRecordings. -/
theorem seqRecs_not_exhaustive_eval :
    runRanges (getRuns ["1", "1", "b", "b"] [0, 0, 0, 0] [0, 0, 0, 0]).inds 4
        = [(0, 1), (2, 3)] ∧
    seqRecsOfRun [1, 1, 9, 9] (2, 3) = [(9, [0])] ∧
    (seqRecsOfRun [1, 1, 9, 9] (2, 3)).countP (fun pr => decide (2 ∈ pr.2)) = 0 ∧
    (seqRecsOfRun [1, 1, 9, 9] (2, 3)).countP (fun pr => decide (3 ∈ pr.2)) = 0 ∧
    (0 : Nat) < 2 := by
  refine ⟨?_, ?_, ?_, ?_, ?_⟩ <;> decide

/-- Claim C5 (counterexample): for the one-run session `["1","1"]` with
states `[1,1]`, the SequentialRecordings produced from run 0 carry the
single id 0, yet the Repetition created for run 0 references the
hard-coded id list `[1,2]` — repetition membership is fixed independently
of the computed run boundaries. -/
theorem repetitions_hardcoded_ce :
    seqRecIdsOfRuns [1, 1] (runRanges (getRuns ["1", "1"] [0, 0] [0, 0]).inds 2) = [[0]] ∧
    repetitions (getRuns ["1", "1"] [0, 0] [0, 0]).runs.length = some [(0, [1, 2])] ∧
    ¬ ([1, 2] : List Nat) = [0] := by
  refine ⟨?_, ?_, ?_⟩ <;> decide

/-- Claim C5 (amended): exactly one Repetition is created per run, with
ids `0..nRuns-1` in run order, but each references the corresponding
entry of the hard-coded list `[[1,2],[3],[4],[5],[6,7]]` rather than the
SequentialRecordings produced from its run; sessions with more than 5
runs abort with an `IndexError`. -/
theorem repetitions_one_per_run (nRuns : Nat) :
    (nRuns ≤ 5 → repetitions nRuns
        = some ((List.range nRuns).map (fun i => (i, hardcodedRunInds.getD i [])))) ∧
    (5 < nRuns → repetitions nRuns = none) := by
  constructor
  · intro h
    unfold repetitions
    rw [if_pos (by simpa [hardcodedRunInds] using h)]
  · intro h
    unfold repetitions
    rw [if_neg (by simp [hardcodedRunInds]; omega)]

/-- Witness for C5 (amended): a one-run session gets exactly one
repetition, with id 0 and the hard-coded references. -/
theorem repetitions_one_per_run_w :
    repetitions 1 = some ((List.range 1).map (fun i => (i, hardcodedRunInds.getD i []))) :=
  (repetitions_one_per_run 1).1 (by decide)

/-- Claim C6: for every sweep the loop finds a run for, the data handed to
the series builder is the raw sweep column multiplied elementwise by a
single session-wide constant selected by the run's kind: `ccScaleFactor`
for plasticity (voltage-unit) runs and `vcScaleFactor` for all other
(current-unit) runs, and the two constants differ. -/
theorem sweep_scaling_by_run_kind (interval : ℚ) (sweepStartTimes : List ℚ)
    (values : List (List ℚ)) (sweepStates sweepIDs : List Int)
    (runs runUnits : List String) (ranges : List (Nat × Int)) (sweep run : Nat)
    (h : findRun ranges sweep = some run) :
    ¬ ccScaleFactor = vcScaleFactor ∧
    (buildSweepCall interval sweepStartTimes values sweepStates sweepIDs runs runUnits
        ranges sweep).map sweepCallData
      = some ((values.getD sweep []).map (fun x =>
          x * (if runs.getD run "" = "plasticity" then ccScaleFactor else vcScaleFactor))) := by
  constructor
  · intro hEq
    have : (2500000000000 : ℚ) = 1 := by
      have h10 : (1000000 : ℚ) ≠ 0 := by norm_num
      have h13 : (10000000000000 : ℚ) ≠ 0 := by norm_num
      field_simp [ccScaleFactor, vcScaleFactor] at hEq
      linarith
    norm_num at this
  · unfold buildSweepCall
    rw [h, Option.map_some']
    by_cases hp : runs.getD run "" = "plasticity"
    · simp only [if_pos hp]
      rfl
    · simp only [if_neg hp]
      rfl

/-- Witness for C6: concrete one-run session; sweep 0 belongs to the
`baseline` run, so its sample `2` is scaled by `vcScaleFactor`. -/
theorem sweep_scaling_by_run_kind_w :
    ¬ ccScaleFactor = vcScaleFactor ∧
    (buildSweepCall 1 [0] [[2]] [0] [1] ["baseline"] ["amperes"] [(0, 0)] 0).map sweepCallData
      = some (([[2]].getD 0 []).map (fun x =>
          x * (if ["baseline"].getD 0 "" = "plasticity" then ccScaleFactor
               else vcScaleFactor))) :=
  sweep_scaling_by_run_kind 1 [0] [[2]] [0] [1] ["baseline"] ["amperes"] [(0, 0)] 0 0 (by decide)

/-- Claim C7: whenever a series pair is constructed, the stimulus series
carries the clamp-control unit (`volts` for the voltage-clamp builder,
`amperes` for the current-clamp builder) while the response series carries
the run's unit from the input; stimulus and response data are the same
list; both share gain 1, the input sampling rate, the input start time and
`sweepOrder[1]` as sweep number — and the sweep loop passes the run's
unit and the sweep's absolute id `sweepIDs[sweep]` in those slots. -/
theorem series_pair_properties :
    (∀ (input : VClampInput) (p : SeriesParams × SeriesParams),
        setVClampSeries input = some p →
        p.1.unit = "volts" ∧ p.2.unit = input.unit ∧
        p.1.data = input.data ∧ p.2.data = input.data ∧
        p.1.gain = 1 ∧ p.2.gain = 1 ∧
        p.1.rate = input.samplingRate ∧ p.2.rate = input.samplingRate ∧
        p.1.startingTime = input.startTime ∧ p.2.startingTime = input.startTime ∧
        p.1.sweepNumber = input.sweepOrder.2 ∧ p.2.sweepNumber = input.sweepOrder.2) ∧
    (∀ input : CClampInput,
        (setCClampSeries input).1.unit = "amperes" ∧
        (setCClampSeries input).2.unit = input.unit ∧
        (setCClampSeries input).1.data = input.data ∧
        (setCClampSeries input).2.data = input.data ∧
        (setCClampSeries input).1.gain = 1 ∧ (setCClampSeries input).2.gain = 1 ∧
        (setCClampSeries input).1.rate = input.samplingRate ∧
        (setCClampSeries input).2.rate = input.samplingRate ∧
        (setCClampSeries input).1.startingTime = input.startTime ∧
        (setCClampSeries input).2.startingTime = input.startTime ∧
        (setCClampSeries input).1.sweepNumber = input.sweepOrder.2 ∧
        (setCClampSeries input).2.sweepNumber = input.sweepOrder.2) ∧
    (∀ (interval : ℚ) (sweepStartTimes : List ℚ) (values : List (List ℚ))
        (sweepStates sweepIDs : List Int) (runs runUnits : List String)
        (ranges : List (Nat × Int)) (sweep run : Nat) (call : SweepSeriesCall),
        findRun ranges sweep = some run →
        buildSweepCall interval sweepStartTimes values sweepStates sweepIDs runs runUnits
            ranges sweep = some call →
        sweepCallUnit call = runUnits.getD run "" ∧
        (sweepCallOrder call).2 = sweepIDs.getD sweep 0 ∧
        (sweepCallOrder call).1 = (sweep : Int) + 1) := by
  refine ⟨?_, ?_, ?_⟩
  · intro input p hsome
    unfold setVClampSeries at hsome
    rcases hd : vclampDescriptions input.condition input.stimState with _ | d
    · rw [hd] at hsome
      exact absurd hsome (by simp)
    · rw [hd] at hsome
      simp only [Option.map_some', Option.some_inj] at hsome
      subst hsome
      exact ⟨rfl, rfl, rfl, rfl, rfl, rfl, rfl, rfl, rfl, rfl, rfl, rfl⟩
  · intro input
    exact ⟨rfl, rfl, rfl, rfl, rfl, rfl, rfl, rfl, rfl, rfl, rfl, rfl⟩
  · intro interval sweepStartTimes values sweepStates sweepIDs runs runUnits ranges
      sweep run call hfind hbuild
    unfold buildSweepCall at hbuild
    rw [hfind, Option.map_some', Option.some_inj] at hbuild
    by_cases hp : runs.getD run "" = "plasticity"
    · rw [if_pos hp] at hbuild
      subst hbuild
      exact ⟨rfl, rfl, rfl⟩
    · rw [if_neg hp] at hbuild
      subst hbuild
      exact ⟨rfl, rfl, rfl⟩

/-- Witness for C7: a concrete `break`-condition sweep produces a pair
with stimulus unit `volts`, response unit from the input, shared data, and
the absolute id `7` as sweep number. -/
theorem series_pair_properties_w :
    ((setVClampSeries vcwInput).getD dummyPair).1.unit = "volts" ∧
    ((setVClampSeries vcwInput).getD dummyPair).2.unit = vcwInput.unit ∧
    ((setVClampSeries vcwInput).getD dummyPair).1.data
      = ((setVClampSeries vcwInput).getD dummyPair).2.data ∧
    ((setVClampSeries vcwInput).getD dummyPair).1.sweepNumber = vcwInput.sweepOrder.2 := by
  have h : setVClampSeries vcwInput = some ((setVClampSeries vcwInput).getD dummyPair) := rfl
  have hall := series_pair_properties.1 vcwInput _ h
  refine ⟨hall.1, hall.2.1, ?_, hall.2.2.2.2.2.2.2.2.2.2.1⟩
  rw [hall.2.2.1, hall.2.2.2.1]

/-- Claim C8 (counterexample): in the two-sweep session `["1","1"]` with
absolute sweep ids `[5,6]`, sweep 0 (absolute id 5, which becomes the
series' `sweepNumber`) produces series named `"PatchClampSeries001"` —
the name is padded from the session-relative order `sweep+1 = 1`, not
from the absolute id 5, whose padded name would be
`"PatchClampSeries005"`. -/
theorem series_name_absolute_id_ce :
    ((buildSweepCall 1 [0, 0] [[], []] [0, 0] [5, 6]
        (getRuns ["1", "1"] [0, 0] [0, 0]).runs (getRuns ["1", "1"] [0, 0] [0, 0]).units
        (runRanges (getRuns ["1", "1"] [0, 0] [0, 0]).inds 2) 0).bind seriesOfCall).map
      (fun p => (p.1.name, p.2.name, p.1.sweepNumber))
      = some ("PatchClampSeries001", "PatchClampSeries001", 5) ∧
    ¬ ("PatchClampSeries001" = "PatchClampSeries" ++ zeroPad 5 ++ toString (5 : Int)) := by
  constructor
  · rfl
  · decide

/-- Claim C8 (amended): both series of a sweep's pair are named
`"PatchClampSeries"` concatenated with the sweep's session-relative order
(`sweepOrder[0] = sweep + 1`, the value the sweep loop passes) zero-padded
to 3 digits (values < 10 get two leading zeros, < 100 one, ≥ 100 none);
the absolute id is carried as `sweepNumber` instead. -/
theorem series_name_session_order :
    (∀ (input : VClampInput) (p : SeriesParams × SeriesParams),
        setVClampSeries input = some p →
        p.1.name = "PatchClampSeries" ++ zeroPad input.sweepOrder.1
            ++ toString input.sweepOrder.1 ∧
        p.2.name = "PatchClampSeries" ++ zeroPad input.sweepOrder.1
            ++ toString input.sweepOrder.1) ∧
    (∀ input : CClampInput,
        (setCClampSeries input).1.name = "PatchClampSeries" ++ zeroPad input.sweepOrder.1
            ++ toString input.sweepOrder.1 ∧
        (setCClampSeries input).2.name = "PatchClampSeries" ++ zeroPad input.sweepOrder.1
            ++ toString input.sweepOrder.1) ∧
    (∀ (interval : ℚ) (sweepStartTimes : List ℚ) (values : List (List ℚ))
        (sweepStates sweepIDs : List Int) (runs runUnits : List String)
        (ranges : List (Nat × Int)) (sweep : Nat) (call : SweepSeriesCall),
        buildSweepCall interval sweepStartTimes values sweepStates sweepIDs runs runUnits
            ranges sweep = some call →
        (sweepCallOrder call).1 = (sweep : Int) + 1) ∧
    seriesName 7 = "PatchClampSeries007" ∧
    seriesName 42 = "PatchClampSeries042" ∧
    seriesName 123 = "PatchClampSeries123" := by
  refine ⟨?_, ?_, ?_, by decide, by decide, by decide⟩
  · intro input p hsome
    unfold setVClampSeries at hsome
    rcases hd : vclampDescriptions input.condition input.stimState with _ | d
    · rw [hd] at hsome
      exact absurd hsome (by simp)
    · rw [hd] at hsome
      simp only [Option.map_some', Option.some_inj] at hsome
      subst hsome
      exact ⟨rfl, rfl⟩
  · intro input
    exact ⟨rfl, rfl⟩
  · intro interval sweepStartTimes values sweepStates sweepIDs runs runUnits ranges
      sweep call hbuild
    unfold buildSweepCall at hbuild
    rw [Option.map_eq_some'] at hbuild
    obtain ⟨run, _, hcall⟩ := hbuild
    by_cases hp : runs.getD run "" = "plasticity"
    · rw [if_pos hp] at hcall
      subst hcall
      rfl
    · rw [if_neg hp] at hcall
      subst hcall
      rfl

/-- Witness for C8 (amended): the concrete `break` input with
`sweepOrder = (1, 7)` yields the name padded from the order value 1. -/
theorem series_name_session_order_w :
    ((setVClampSeries vcwInput).getD dummyPair).1.name
      = "PatchClampSeries" ++ zeroPad vcwInput.sweepOrder.1
          ++ toString vcwInput.sweepOrder.1 := by
  have h : setVClampSeries vcwInput = some ((setVClampSeries vcwInput).getD dummyPair) := rfl
  exact (series_name_session_order.1 vcwInput _ h).1

/-- Claim C9 (code evaluation): for a single-run session whose scanned
states are `[1, 5]`, state 5 is outside the stimulus-type map, yet the
tagging loop completes without error and tags the state-5 sequential
recording `"current"` — the stale `stimulusType` value left over from the
state-1 iteration — instead of raising a fatal error. -/
theorem stim_tag_stale_reuse_eval :
    stimTag? 5 = none ∧
    sessionTags [1, 5, 1] (runRanges (getRuns ["1", "1", "1"] [0, 0, 0] [0, 0, 0]).inds 3)
        = some ["current", "current"] ∧
    sessionUniqueStateStream [1, 5, 1]
        (runRanges (getRuns ["1", "1", "1"] [0, 0, 0] [0, 0, 0]).inds 3) = [1, 5] := by
  refine ⟨rfl, ?_, ?_⟩ <;> decide

/-- Claim C10: `setVClampSeries` returns a series pair exactly when the
condition is `"baseline"` with stimulation state 0 or 1, or the condition
is `"break"`; in every other combination the description local variables
are never assigned and the function aborts with an unhandled `NameError`
(modelled as `none`). -/
theorem setVClampSeries_totality (input : VClampInput) :
    (setVClampSeries input).isSome = true
      ↔ ((input.condition = "baseline" ∧ (input.stimState = 0 ∨ input.stimState = 1))
          ∨ input.condition = "break") := by
  unfold setVClampSeries vclampDescriptions
  by_cases h1 : input.condition = "baseline"
  · rw [if_pos h1, h1]
    by_cases h2 : input.stimState = 0
    · rw [if_pos h2, h2]
      simp
    · rw [if_neg h2]
      by_cases h3 : input.stimState = 1
      · rw [if_pos h3, h3]
        simp
      · rw [if_neg h3]
        simp [h2, h3]
  · rw [if_neg h1]
    by_cases h4 : input.condition = "break"
    · rw [if_pos h4, h4]
      simp
    · rw [if_neg h4]
      simp [h1, h4]

end PClamp
